import Mathlib

/-!
Verification of the InfluxDB storage driver (`src/storage/influxdb/influxdb.go`).

The Go file is shallowly embedded: Go structs become Lean structures, Go
`interface{}` values stored in rows become the inductive `GoValue`, Go errors
become the inductive `GoErr` (one constructor per `fmt.Errorf` site, carrying
the interpolated data), and fallible functions return `Except GoErr`.
Machine integers are modelled as `Nat`/`Int` (no arithmetic in the embedded
code can overflow on the inputs considered), `time.Time` as its `UnixNano`
value in mathematical `Int` nanoseconds, and Go `float64` as `Rat` (the
embedded code only compares floats with zero and truncates them toward zero,
which `Rat` models exactly on representable values).
-/

/- Go semantics note, load-bearing for everything below: Go slices are passed
by value.  A callee that does `s = append(s, x)` rebinds only its own copy of
the slice header; the caller's slice keeps its length.  `getSeriesDefaultValues`
receives `columns []string, values []interface{}` BY VALUE, so the default
columns it appends are invisible to both of its callers. -/

namespace Boxspy

/-- `info.FsStats`: one filesystem device sample. -/
structure FsStats where
  device : String
  limit : Nat
  usage : Nat
deriving DecidableEq, Repr

/-- `info.CpuUsage` (only the field this file touches). -/
structure CpuUsage where
  total : Nat
deriving DecidableEq, Repr

/-- `info.CpuStats` (only the field this file touches). -/
structure CpuStats where
  usage : CpuUsage
deriving DecidableEq, Repr

/-- `info.MemoryStats` (only the fields this file touches). -/
structure MemoryStats where
  usage : Nat
  workingSet : Nat
deriving DecidableEq, Repr

/-- `info.NetworkStats`. -/
structure NetworkStats where
  rxBytes : Nat
  rxErrors : Nat
  txBytes : Nat
  txErrors : Nat
deriving DecidableEq, Repr

/-- `info.ContainerReference`: primary name plus optional aliases. -/
structure ContainerReference where
  name : String
  aliases : List String
deriving DecidableEq, Repr

/-- `UnixNano` of Go's zero `time.Time` (0001-01-01 UTC), as a mathematical
integer (Go's `int64` overflows here, but the embedding never does arithmetic
with this constant). `t.IsZero()` is modelled as comparison with it. -/
def goZeroTimeUnixNano : Int := -62135596800 * 1000000000

/-- `time.Time.IsZero` on the `UnixNano` representation. -/
def timeIsZero (t : Int) : Bool := t == goZeroTimeUnixNano

/-- `info.ContainerStats`: one sample. `Cpu`, `Memory`, `Network` are pointers
in Go, hence `Option` here; `Timestamp` is a `time.Time`, kept as `UnixNano`. -/
structure ContainerStats where
  timestamp : Int
  cpu : Option CpuStats
  memory : Option MemoryStats
  network : Option NetworkStats
  filesystem : List FsStats
deriving DecidableEq, Repr

/-- A Go `interface{}` value as it occurs in a row's values list. -/
inductive GoValue where
  | null : GoValue
  | str : String → GoValue
  | u64 : Nat → GoValue
  | u32 : Nat → GoValue
  | i : Int → GoValue
  | i32 : Int → GoValue
  | i64 : Int → GoValue
  | f64 : Rat → GoValue
deriving DecidableEq, Repr

/-- One error constructor per `fmt.Errorf` site in the Go file, carrying the
data interpolated into the message. -/
inductive GoErr where
  | negativeValue : GoValue → GoErr
  | unknownType : GoErr
  | differentMachine : GoErr
  | machineNotString : GoValue → GoErr
  | fsDeviceNotString : GoValue → GoErr
  | fsLimitInvalid : GoValue → GoErr → GoErr
  | fsUsageInvalid : GoValue → GoErr → GoErr
  | columnInvalid : String → GoValue → GoErr → GoErr
  | writeFailed : String → GoErr
  | storeErr : String → GoErr
deriving DecidableEq, Repr

/-- `influxdb.Series`: a named batch row (or query result group). -/
structure Series where
  name : String
  columns : List String
  points : List (List GoValue)
deriving DecidableEq, Repr

def colTimestamp : String := "time"
def colMachineName : String := "machine"
def colContainerName : String := "container_name"
def colCpuCumulativeUsage : String := "cpu_cumulative_usage"
def colMemoryUsage : String := "memory_usage"
def colMemoryWorkingSet : String := "memory_working_set"
def colRxBytes : String := "rx_bytes"
def colRxErrors : String := "rx_errors"
def colTxBytes : String := "tx_bytes"
def colTxErrors : String := "tx_errors"
def colFsDevice : String := "fs_device"
def colFsLimit : String := "fs_limit"
def colFsUsage : String := "fs_usage"

/-- `ref.Aliases[0]` if aliases exist, else `ref.Name` (the container identity
written into rows). -/
def containerIdentity (ref : ContainerReference) : String :=
  match ref.aliases with
  | [] => ref.name
  | a :: _ => a

/-- `getSeriesDefaultValues`: appends the three default columns to its own
copies of the slices and returns the callee-local result.  `1E3` is an untyped
constant, so `stats.Timestamp.UnixNano()/1E3` is `int64` truncated division. -/
def getSeriesDefaultValues (machineName : String) (ref : ContainerReference)
    (stats : ContainerStats) (columns : List String) (values : List GoValue) :
    List String × List GoValue :=
  let columns := columns ++ [colTimestamp]
  let values := values ++ [GoValue.i64 (Int.tdiv stats.timestamp 1000)]
  let columns := columns ++ [colMachineName]
  let values := values ++ [GoValue.str machineName]
  let columns := columns ++ [colContainerName]
  let values := values ++ [GoValue.str (containerIdentity ref)]
  (columns, values)

/-- `containerStatsToValues`.  The Go code calls `getSeriesDefaultValues(ref,
stats, columns, values)` on the (nil) named result slices; the appends happen
on the callee's copies, so nothing reaches this function's `columns`/`values`
(see the slice-passing note at the top of the file).  `stats.Cpu` and
`stats.Memory` are dereferenced unconditionally; callers (`AddStats`) only
pass samples where both are non-nil, and Go would panic otherwise, which we
model by defaulting. -/
def containerStatsToValues (machineName : String) (ref : ContainerReference)
    (stats : ContainerStats) : List String × List GoValue :=
  let columns : List String := []
  let values : List GoValue := []
  let _ := getSeriesDefaultValues machineName ref stats columns values
  let columns := columns ++ [colCpuCumulativeUsage]
  let values := values ++ [GoValue.u64 (stats.cpu.getD ⟨⟨0⟩⟩).usage.total]
  let columns := columns ++ [colMemoryUsage]
  let values := values ++ [GoValue.u64 (stats.memory.getD ⟨0, 0⟩).usage]
  let columns := columns ++ [colMemoryWorkingSet]
  let values := values ++ [GoValue.u64 (stats.memory.getD ⟨0, 0⟩).workingSet]
  match stats.network with
  | none => (columns, values)
  | some nw =>
    let columns := columns ++ [colRxBytes]
    let values := values ++ [GoValue.u64 nw.rxBytes]
    let columns := columns ++ [colRxErrors]
    let values := values ++ [GoValue.u64 nw.rxErrors]
    let columns := columns ++ [colTxBytes]
    let values := values ++ [GoValue.u64 nw.txBytes]
    let columns := columns ++ [colTxErrors]
    let values := values ++ [GoValue.u64 nw.txErrors]
    (columns, values)

/-- `newSeries`: wraps one columns/values pair into a single-point series. -/
def newSeries (tableName : String) (columns : List String)
    (points : List GoValue) : Series :=
  { name := tableName, columns := columns, points := [points] }

/-- `containerFilesystemStatsToSeries`: one extra series per filesystem
device.  As in `containerStatsToValues`, the `getSeriesDefaultValues` call
mutates only callee-local slice copies, so each emitted series carries just
the three filesystem columns. -/
def containerFilesystemStatsToSeries (machineName tableName : String)
    (ref : ContainerReference) (stats : ContainerStats) : List Series :=
  if stats.filesystem.length = 0 then []
  else
    stats.filesystem.map (fun fsStat =>
      let columns : List String := []
      let values : List GoValue := []
      let _ := getSeriesDefaultValues machineName ref stats columns values
      let columns := columns ++ [colFsDevice]
      let values := values ++ [GoValue.str fsStat.device]
      let columns := columns ++ [colFsLimit]
      let values := values ++ [GoValue.u64 fsStat.limit]
      let columns := columns ++ [colFsUsage]
      let values := values ++ [GoValue.u64 fsStat.usage]
      newSeries tableName columns values)

/-- Go conversion `int64(f)` of a `float64`: truncation toward zero. -/
def ratTrunc (q : Rat) : Int := if q < 0 then q.ceil else q.floor

/-- `convertToUint64`: the numeric coercion used by the read path.  `nil`
coerces to zero; `uint64`/`uint32` pass through; `int`/`int32`/`int64` and
`float64` fail when negative and convert otherwise (`uint64(x)` truncates a
float toward zero); everything else is an unknown type. -/
def convertToUint64 (v : GoValue) : Except GoErr Nat :=
  match v with
  | GoValue.null => Except.ok 0
  | GoValue.u64 x => Except.ok x
  | GoValue.i x =>
    if x < 0 then Except.error (GoErr.negativeValue v) else Except.ok x.toNat
  | GoValue.i32 x =>
    if x < 0 then Except.error (GoErr.negativeValue v) else Except.ok x.toNat
  | GoValue.i64 x =>
    if x < 0 then Except.error (GoErr.negativeValue v) else Except.ok x.toNat
  | GoValue.f64 q =>
    if q < 0 then Except.error (GoErr.negativeValue v)
    else Except.ok (ratTrunc q).toNat
  | GoValue.u32 x => Except.ok x
  | GoValue.str _ => Except.error GoErr.unknownType

/-- The accumulator `valuesToContainerStats` starts from: zero time, non-nil
zero-valued Cpu/Memory/Network sub-records, empty filesystem list. -/
def initialReconStats : ContainerStats :=
  { timestamp := goZeroTimeUnixNano
  , cpu := some ⟨⟨0⟩⟩
  , memory := some ⟨0, 0⟩
  , network := some ⟨0, 0, 0, 0⟩
  , filesystem := [] }

def setCpuTotal (s : ContainerStats) (x : Nat) : ContainerStats :=
  { s with cpu := some ⟨⟨x⟩⟩ }

def setMemUsage (s : ContainerStats) (x : Nat) : ContainerStats :=
  { s with memory := some { s.memory.getD ⟨0, 0⟩ with usage := x } }

def setMemWorkingSet (s : ContainerStats) (x : Nat) : ContainerStats :=
  { s with memory := some { s.memory.getD ⟨0, 0⟩ with workingSet := x } }

def setRxBytes (s : ContainerStats) (x : Nat) : ContainerStats :=
  { s with network := some { s.network.getD ⟨0, 0, 0, 0⟩ with rxBytes := x } }

def setRxErrors (s : ContainerStats) (x : Nat) : ContainerStats :=
  { s with network := some { s.network.getD ⟨0, 0, 0, 0⟩ with rxErrors := x } }

def setTxBytes (s : ContainerStats) (x : Nat) : ContainerStats :=
  { s with network := some { s.network.getD ⟨0, 0, 0, 0⟩ with txBytes := x } }

def setTxErrors (s : ContainerStats) (x : Nat) : ContainerStats :=
  { s with network := some { s.network.getD ⟨0, 0, 0, 0⟩ with txErrors := x } }

/-- `stats.Filesystem` update used by the fs-device case: write slot 0,
creating it (with zero values for the other fields) if the list is empty. -/
def setFsDevice (fs : List FsStats) (device : String) : List FsStats :=
  match fs with
  | [] => [{ device := device, limit := 0, usage := 0 }]
  | f :: rest => { f with device := device } :: rest

def setFsLimit (fs : List FsStats) (limit : Nat) : List FsStats :=
  match fs with
  | [] => [{ device := "", limit := limit, usage := 0 }]
  | f :: rest => { f with limit := limit } :: rest

def setFsUsage (fs : List FsStats) (usage : Nat) : List FsStats :=
  match fs with
  | [] => [{ device := "", limit := 0, usage := usage }]
  | f :: rest => { f with usage := usage } :: rest

/-- One iteration of the column loop of `valuesToContainerStats`: the `switch`
on the column name, including the per-iteration `if err != nil` wrap for the
cases that assign the shared `err` (cpu/memory/network columns; the filesystem
cases shadow `err` and wrap their own message, the machine and timestamp cases
never set it).  The timestamp case applies only to a `float64` value and only
when the timestamp is still the zero time; `time.Unix(sec, nsec)` contributes
`sec*1e9 + nsec` nanoseconds. -/
def applyColumn (machineName : String) (s : ContainerStats) (col : String)
    (v : GoValue) : Except GoErr ContainerStats :=
  if col = colTimestamp then
    match v with
    | GoValue.f64 q =>
      if timeIsZero s.timestamp then
        let d := ratTrunc q
        Except.ok { s with
          timestamp := (Int.tdiv d 1000) * 1000000000 + (Int.tmod d 1000) * 1000000 }
      else Except.ok s
    | _ => Except.ok s
  else if col = colMachineName then
    match v with
    | GoValue.str m =>
      if m ≠ machineName then Except.error GoErr.differentMachine
      else Except.ok s
    | _ => Except.error (GoErr.machineNotString v)
  else if col = colCpuCumulativeUsage then
    match convertToUint64 v with
    | Except.ok x => Except.ok (setCpuTotal s x)
    | Except.error e => Except.error (GoErr.columnInvalid col v e)
  else if col = colMemoryUsage then
    match convertToUint64 v with
    | Except.ok x => Except.ok (setMemUsage s x)
    | Except.error e => Except.error (GoErr.columnInvalid col v e)
  else if col = colMemoryWorkingSet then
    match convertToUint64 v with
    | Except.ok x => Except.ok (setMemWorkingSet s x)
    | Except.error e => Except.error (GoErr.columnInvalid col v e)
  else if col = colRxBytes then
    match convertToUint64 v with
    | Except.ok x => Except.ok (setRxBytes s x)
    | Except.error e => Except.error (GoErr.columnInvalid col v e)
  else if col = colRxErrors then
    match convertToUint64 v with
    | Except.ok x => Except.ok (setRxErrors s x)
    | Except.error e => Except.error (GoErr.columnInvalid col v e)
  else if col = colTxBytes then
    match convertToUint64 v with
    | Except.ok x => Except.ok (setTxBytes s x)
    | Except.error e => Except.error (GoErr.columnInvalid col v e)
  else if col = colTxErrors then
    match convertToUint64 v with
    | Except.ok x => Except.ok (setTxErrors s x)
    | Except.error e => Except.error (GoErr.columnInvalid col v e)
  else if col = colFsDevice then
    match v with
    | GoValue.str device =>
      Except.ok { s with filesystem := setFsDevice s.filesystem device }
    | _ => Except.error (GoErr.fsDeviceNotString v)
  else if col = colFsLimit then
    match convertToUint64 v with
    | Except.ok limit =>
      Except.ok { s with filesystem := setFsLimit s.filesystem limit }
    | Except.error e => Except.error (GoErr.fsLimitInvalid v e)
  else if col = colFsUsage then
    match convertToUint64 v with
    | Except.ok usage =>
      Except.ok { s with filesystem := setFsUsage s.filesystem usage }
    | Except.error e => Except.error (GoErr.fsUsageInvalid v e)
  else Except.ok s

/-- The column loop of `valuesToContainerStats`: fold `applyColumn` over the
column/value pairs, aborting on the first error. -/
def applyColumns (machineName : String) (s : ContainerStats) :
    List (String × GoValue) → Except GoErr ContainerStats
  | [] => Except.ok s
  | cv :: rest =>
    match applyColumn machineName s cv.1 cv.2 with
    | Except.error e => Except.error e
    | Except.ok s2 => applyColumns machineName s2 rest

/-- `valuesToContainerStats`: walk the columns, each paired with the value at
the same index.  (Go indexes `values[i]` and would panic on a values list
shorter than the columns list; `zip` traverses the common length, and every
claim below constrains or uses equal-length rows.) -/
def valuesToContainerStats (machineName : String) (columns : List String)
    (values : List GoValue) : Except GoErr ContainerStats :=
  applyColumns machineName initialReconStats (columns.zip values)

/-- The shared mutable state of `influxdbStorage` that `AddStats` touches
under the lock: the pending batch and the last-flush time (`UnixNano`). -/
structure BufferState where
  series : List Series
  lastWrite : Int
deriving DecidableEq, Repr

/-- `defaultReadyToFlush`: `time.Since(lastWrite) >= bufferDuration`. -/
def defaultReadyToFlush (now : Int) (st : BufferState) (bufferDuration : Int) :
    Bool :=
  bufferDuration ≤ now - st.lastWrite

/-- The locked section of `AddStats` (the anonymous function holding the
mutex): append the core-metrics series and the filesystem series to the
pending batch; if the ready predicate fires, swap the batch out for an empty
one and record `lastWrite = time.Now()` in the same step.  Returns the new
shared state and `seriesToFlush`.  `ready` is the value the (pluggable)
`readyToFlush()` predicate returns at this evaluation, `now` the value of
`time.Now()`. -/
def addStatsLocked (machineName tableName : String) (ready : Bool) (now : Int)
    (st : BufferState) (ref : ContainerReference) (stats : ContainerStats) :
    BufferState × List Series :=
  let cv := containerStatsToValues machineName ref stats
  let series := st.series ++ [newSeries tableName cv.1 cv.2]
    ++ containerFilesystemStatsToSeries machineName tableName ref stats
  if ready then ({ series := [], lastWrite := now }, series)
  else ({ series := series, lastWrite := st.lastWrite }, [])

/-- `AddStats`.  A nil sample or a sample with nil `Cpu` or `Memory` returns
nil immediately.  Otherwise the locked section runs, and — outside the lock —
a non-empty `seriesToFlush` is handed to the store client, whose outcome is
the environment parameter `writeResult`; a write error is wrapped.  The
result is the final shared state paired with the returned error. -/
def addStats (machineName tableName : String) (ready : Bool) (now : Int)
    (writeResult : Except String Unit) (st : BufferState)
    (ref : ContainerReference) (stats : Option ContainerStats) :
    BufferState × Option GoErr :=
  match stats with
  | none => (st, none)
  | some stats =>
    if stats.cpu.isNone ∨ stats.memory.isNone then (st, none)
    else
      let r := addStatsLocked machineName tableName ready now st ref stats
      if r.2.length > 0 then
        match writeResult with
        | Except.ok _ => (r.1, none)
        | Except.error e => (r.1, some (GoErr.writeFailed e))
      else (r.1, none)

/-- An ASCII single-quote character (the query string wraps the interpolated
identities in these). -/
def sq : String := String.singleton (Char.ofNat 39)

/-- The query string `RecentStats` builds: a select with equality filters on
container name and machine, plus a limit clause when `numStats > 0`
(`numStats` is a Go `int` and may be negative). -/
def recentStatsQuery (tableName containerName machineName : String)
    (numStats : Int) : String :=
  let query := "select * from " ++ tableName ++ " where " ++ colContainerName
    ++ "=" ++ sq ++ containerName ++ sq ++ " and " ++ colMachineName
    ++ "=" ++ sq ++ machineName ++ sq
  if numStats > 0 then query ++ " limit " ++ toString numStats else query

/-- The inner loop of `RecentStats`: `for j := len(s.Points)-1; j >= 0; j--`,
modelled as a forward traversal of the reversed points list, appending each
reconstructed record and aborting on the first reconstruction error.  (The
Go `if stats == nil continue` guard is dead: `valuesToContainerStats` never
returns a nil record together with a nil error.) -/
def recentLoopPoints (machineName : String) (columns : List String)
    (acc : List ContainerStats) :
    List (List GoValue) → Except GoErr (List ContainerStats)
  | [] => Except.ok acc
  | p :: ps =>
    match valuesToContainerStats machineName columns p with
    | Except.error e => Except.error e
    | Except.ok stats => recentLoopPoints machineName columns (acc ++ [stats]) ps

/-- The outer loop of `RecentStats`: `for i := len(series)-1; i >= 0; i--`,
modelled on the reversed series list. -/
def recentLoopSeries (machineName : String) (acc : List ContainerStats) :
    List Series → Except GoErr (List ContainerStats)
  | [] => Except.ok acc
  | s :: ss =>
    match recentLoopPoints machineName s.columns acc s.points.reverse with
    | Except.error e => Except.error e
    | Except.ok acc2 => recentLoopSeries machineName acc2 ss

/-- `RecentStats`.  `numStats == 0` returns nil, nil before anything else.
The store client is the environment parameter `store`, mapping the query
string to either an error (returned unchanged, wrapped as `storeErr`) or a
series list in the store's native time-descending order. -/
def recentStats (tableName containerName machineName : String) (numStats : Int)
    (store : String → Except String (List Series)) :
    Except GoErr (List ContainerStats) :=
  if numStats = 0 then Except.ok []
  else
    match store (recentStatsQuery tableName containerName machineName numStats) with
    | Except.error e => Except.error (GoErr.storeErr e)
    | Except.ok series => recentLoopSeries machineName [] series.reverse

/-- Reference reconstruction of a series' points in the store's native order
(used to state what `RecentStats` reverses). -/
def reconPoints (machineName : String) (columns : List String) :
    List (List GoValue) → Except GoErr (List ContainerStats)
  | [] => Except.ok []
  | p :: ps =>
    match valuesToContainerStats machineName columns p with
    | Except.error e => Except.error e
    | Except.ok stats =>
      match reconPoints machineName columns ps with
      | Except.error e => Except.error e
      | Except.ok rest => Except.ok (stats :: rest)

/-- Reference reconstruction of a whole query result in the store's native
order: series in given order, each series' points in given order. -/
def reconAll (machineName : String) :
    List Series → Except GoErr (List ContainerStats)
  | [] => Except.ok []
  | s :: ss =>
    match reconPoints machineName s.columns s.points with
    | Except.error e => Except.error e
    | Except.ok l =>
      match reconAll machineName ss with
      | Except.error e => Except.error e
      | Except.ok rest => Except.ok (l ++ rest)

/-- Concrete sample data used by the evaluation theorems below. -/
def demoRef : ContainerReference := ⟨"cont", ["alias0"]⟩

/-- A valid sample with network data and no filesystem entries. -/
def demoStatsNet : ContainerStats :=
  ⟨1234567890123456789, some ⟨⟨77⟩⟩, some ⟨100, 50⟩, some ⟨1, 2, 3, 4⟩, []⟩

/-- A valid sample with two filesystem entries. -/
def demoStatsFs : ContainerStats :=
  ⟨1234567890123456789, some ⟨⟨77⟩⟩, some ⟨100, 50⟩, none,
    [⟨"sda", 10, 5⟩, ⟨"sdb", 20, 6⟩]⟩

/-- Two demo series as a store would return them: newest first, each series'
points newest first (timestamps 30, 20 in the first series, 10 in the
second). -/
def demoSeries : List Series :=
  [ ⟨"tbl", [colTimestamp], [[GoValue.f64 30], [GoValue.f64 20]]⟩
  , ⟨"tbl", [colTimestamp], [[GoValue.f64 10]]⟩ ]

/-- The record that reconstructing a single-column timestamp row with value
`t` (microsecond-scale float) produces. -/
def demoRecon (t : Int) : ContainerStats :=
  { timestamp := t * 1000000, cpu := some ⟨⟨0⟩⟩, memory := some ⟨0, 0⟩,
    network := some ⟨0, 0, 0, 0⟩, filesystem := [] }

/-- The record reconstructed from the C10 witness input. -/
def c10Expected : ContainerStats :=
  { timestamp := goZeroTimeUnixNano, cpu := some ⟨⟨0⟩⟩, memory := some ⟨0, 0⟩,
    network := some ⟨0, 0, 0, 0⟩, filesystem := [⟨"sdb", 9, 0⟩] }

deriving instance DecidableEq for Except

/-! ## Theorems -/

/-- Splitting the column walk of the reconstruction at a list append. -/
theorem applyColumns_append (machineName : String) (s : ContainerStats)
    (l1 l2 : List (String × GoValue)) :
    applyColumns machineName s (l1 ++ l2)
      = match applyColumns machineName s l1 with
        | Except.error e => Except.error e
        | Except.ok s2 => applyColumns machineName s2 l2 := by
  induction l1 generalizing s with
  | nil => rfl
  | cons cv rest ih =>
    simp only [List.cons_append, applyColumns]
    cases applyColumn machineName s cv.1 cv.2 with
    | error e => rfl
    | ok s2 => exact ih s2

/-- C1: the claim says every write-path row (core-metrics row and each
filesystem row) has equal-length, non-empty columns/values lists containing
the three default columns (timestamp, host identity, container identity).
Evaluating the code at a concrete valid sample refutes the default-columns
part: the lists are equal-length and non-empty, but none of the three default
columns occurs in any emitted row, because `getSeriesDefaultValues` appends
them to by-value copies of the caller's slices. -/
theorem c1_write_rows_lack_default_columns :
    (containerStatsToValues "hostA" demoRef demoStatsNet).1
        = [colCpuCumulativeUsage, colMemoryUsage, colMemoryWorkingSet,
           colRxBytes, colRxErrors, colTxBytes, colTxErrors] ∧
    (containerStatsToValues "hostA" demoRef demoStatsNet).1.length
        = (containerStatsToValues "hostA" demoRef demoStatsNet).2.length ∧
    (containerStatsToValues "hostA" demoRef demoStatsNet).1.length ≠ 0 ∧
    colTimestamp ∉ (containerStatsToValues "hostA" demoRef demoStatsNet).1 ∧
    colMachineName ∉ (containerStatsToValues "hostA" demoRef demoStatsNet).1 ∧
    colContainerName ∉ (containerStatsToValues "hostA" demoRef demoStatsNet).1 ∧
    (∀ s ∈ containerFilesystemStatsToSeries "hostA" "tbl" demoRef demoStatsFs,
        s.columns = [colFsDevice, colFsLimit, colFsUsage] ∧
        s.points = [s.points.headI] ∧ s.points.headI.length = 3) := by
  decide

/-- C2: the claim says the typed→rows→typed round trip (same host identity)
reproduces CPU, memory usage, memory working set, network values, and the
timestamp at microsecond precision.  Evaluating the code at a concrete valid
sample with no filesystem entries refutes the timestamp part: the emitted row
carries no timestamp or host column at all (see C1), so the reconstructed
record keeps the Go zero time, while the CPU/memory/network values do
round-trip. -/
theorem c2_roundtrip_loses_timestamp :
    valuesToContainerStats "hostA"
        (containerStatsToValues "hostA" demoRef demoStatsNet).1
        (containerStatsToValues "hostA" demoRef demoStatsNet).2
      = Except.ok { timestamp := goZeroTimeUnixNano
                  , cpu := demoStatsNet.cpu
                  , memory := demoStatsNet.memory
                  , network := demoStatsNet.network
                  , filesystem := [] } ∧
    demoStatsNet.timestamp ≠ goZeroTimeUnixNano :=
  ⟨rfl, by decide⟩

/-- C3: the claim says the conversion of a sample with k ≥ 1 filesystem
entries produces exactly 1 + k rows — the core row first, then one row per
device in original order, each filesystem row carrying only the default
columns plus device/limit/usage.  Evaluating the code at a sample with two
filesystem entries confirms the row count and device order but refutes the
filesystem-row content: those rows carry ONLY device/limit/usage, no default
columns (same slice-passing slip as C1). -/
theorem c3_fs_rows_count_order_but_no_defaults :
    (addStatsLocked "hostA" "tbl" true 0 ⟨[], 0⟩ demoRef demoStatsFs).2.length
        = 1 + 2 ∧
    (addStatsLocked "hostA" "tbl" true 0 ⟨[], 0⟩ demoRef demoStatsFs).2
      = [ newSeries "tbl"
            [colCpuCumulativeUsage, colMemoryUsage, colMemoryWorkingSet]
            [GoValue.u64 77, GoValue.u64 100, GoValue.u64 50]
        , newSeries "tbl" [colFsDevice, colFsLimit, colFsUsage]
            [GoValue.str "sda", GoValue.u64 10, GoValue.u64 5]
        , newSeries "tbl" [colFsDevice, colFsLimit, colFsUsage]
            [GoValue.str "sdb", GoValue.u64 20, GoValue.u64 6] ] ∧
    (∀ s ∈ containerFilesystemStatsToSeries "hostA" "tbl" demoRef demoStatsFs,
        colTimestamp ∉ s.columns ∧ colMachineName ∉ s.columns ∧
        colContainerName ∉ s.columns) := by
  decide

/-- C7: when an append triggers a flush, the locked section swaps the pending
batch for an empty one AND records the flush timestamp in the same atomic
step, handing exactly the accumulated rows (previous batch plus the new
sample's rows) to the store; a store write failure is returned wrapped to the
caller, and whether the write succeeds or fails the final pending batch stays
empty — the flushed rows are never reinserted (at-most-once delivery). -/
theorem c7_flush_swap_and_no_reinsertion (machineName tableName : String)
    (now : Int) (e : String) (st : BufferState) (ref : ContainerReference)
    (stats : ContainerStats) (c : CpuStats) (mem : MemoryStats)
    (hcpu : stats.cpu = some c) (hmem : stats.memory = some mem) :
    (addStatsLocked machineName tableName true now st ref stats).1
        = { series := [], lastWrite := now } ∧
    (addStatsLocked machineName tableName true now st ref stats).2
        = st.series
          ++ [newSeries tableName (containerStatsToValues machineName ref stats).1
                (containerStatsToValues machineName ref stats).2]
          ++ containerFilesystemStatsToSeries machineName tableName ref stats ∧
    addStats machineName tableName true now (Except.error e) st ref (some stats)
        = ({ series := [], lastWrite := now }, some (GoErr.writeFailed e)) ∧
    addStats machineName tableName true now (Except.ok ()) st ref (some stats)
        = ({ series := [], lastWrite := now }, none) := by
  have hval : ¬ (stats.cpu.isNone ∨ stats.memory.isNone) := by
    simp [hcpu, hmem]
  have hlen : 0 < (addStatsLocked machineName tableName true now st ref stats).2.length := by
    simp [addStatsLocked]
  refine ⟨by simp [addStatsLocked], by simp [addStatsLocked], ?_, ?_⟩
  · simp only [addStats, hval, if_false, hlen, if_pos]
    simp [addStatsLocked]
  · simp only [addStats, hval, if_false, hlen, if_pos]
    simp [addStatsLocked]

/-- Witness for C7 at a concrete input. -/
theorem c7_flush_swap_and_no_reinsertion_witness :
    (addStatsLocked "hostA" "tbl" true 5 ⟨[], 0⟩ demoRef demoStatsNet).1
        = { series := [], lastWrite := 5 } ∧
    (addStatsLocked "hostA" "tbl" true 5 ⟨[], 0⟩ demoRef demoStatsNet).2
        = [] ++ [newSeries "tbl" (containerStatsToValues "hostA" demoRef demoStatsNet).1
                  (containerStatsToValues "hostA" demoRef demoStatsNet).2]
          ++ containerFilesystemStatsToSeries "hostA" "tbl" demoRef demoStatsNet ∧
    addStats "hostA" "tbl" true 5 (Except.error "boom") ⟨[], 0⟩ demoRef
        (some demoStatsNet)
        = ({ series := [], lastWrite := 5 }, some (GoErr.writeFailed "boom")) ∧
    addStats "hostA" "tbl" true 5 (Except.ok ()) ⟨[], 0⟩ demoRef
        (some demoStatsNet)
        = ({ series := [], lastWrite := 5 }, none) :=
  c7_flush_swap_and_no_reinsertion "hostA" "tbl" 5 "boom" ⟨[], 0⟩ demoRef
    demoStatsNet ⟨⟨77⟩⟩ ⟨100, 50⟩ rfl rfl

/-- C8: `AddStats` called with a nil sample, or a sample whose Cpu or Memory
sub-record is nil, returns no error and leaves the shared state (pending
batch and last-flush timestamp) unchanged. -/
theorem c8_addStats_invalid_sample_is_noop (machineName tableName : String)
    (ready : Bool) (now : Int) (writeResult : Except String Unit)
    (st : BufferState) (ref : ContainerReference)
    (stats : Option ContainerStats)
    (h : stats = none ∨ ∃ s, stats = some s ∧ (s.cpu = none ∨ s.memory = none)) :
    addStats machineName tableName ready now writeResult st ref stats
      = (st, none) := by
  rcases h with h | ⟨s, rfl, hcm⟩
  · subst h; rfl
  · rcases hcm with h | h <;> simp [addStats, h]

/-- Witness for C8 at concrete inputs: a nil sample and a sample with a nil
Cpu sub-record. -/
theorem c8_addStats_invalid_sample_is_noop_witness :
    addStats "hostA" "tbl" true 0 (Except.ok ()) ⟨[], 0⟩ demoRef none
        = (⟨[], 0⟩, none) ∧
    addStats "hostA" "tbl" true 0 (Except.ok ()) ⟨[], 0⟩ demoRef
        (some { demoStatsNet with cpu := none }) = (⟨[], 0⟩, none) :=
  ⟨ c8_addStats_invalid_sample_is_noop "hostA" "tbl" true 0 (Except.ok ())
      ⟨[], 0⟩ demoRef none (Or.inl rfl)
  , c8_addStats_invalid_sample_is_noop "hostA" "tbl" true 0 (Except.ok ())
      ⟨[], 0⟩ demoRef (some { demoStatsNet with cpu := none })
      (Or.inr ⟨_, rfl, Or.inl rfl⟩) ⟩

/-- C9: for every container identity (and table name, host identity), the
recent-stats retrieval with a requested count of zero returns an empty result
and no error, for EVERY possible store behavior — i.e. the store is never
consulted. -/
theorem c9_recentStats_zero_is_noop (tableName containerName machineName : String)
    (store : String → Except String (List Series)) :
    recentStats tableName containerName machineName 0 store = Except.ok [] := rfl

/-- C5 counterexample: the claim says any input whose host-identity column
decodes to a different host fails with the "different machine" error
REGARDLESS of the other columns.  But the column walk is sequential: here the
cpu column precedes the machine column and holds a negative value, so the
reconstruction fails with that column's coercion error instead of the
identity-mismatch error. -/
theorem c5_counterexample_earlier_error_wins :
    valuesToContainerStats "hostA" [colCpuCumulativeUsage, colMachineName]
        [GoValue.i (-1), GoValue.str "hostB"]
      = Except.error (GoErr.columnInvalid colCpuCumulativeUsage (GoValue.i (-1))
          (GoErr.negativeValue (GoValue.i (-1)))) ∧
    ¬ valuesToContainerStats "hostA" [colCpuCumulativeUsage, colMachineName]
        [GoValue.i (-1), GoValue.str "hostB"]
      = Except.error GoErr.differentMachine := by
  decide

/-- C5 (amended): whenever every column BEFORE the host-identity column
processes without error and the host column's value is a string differing
from the expected host, reconstruction fails with the "different machine"
error, whatever columns and values follow.  (The unamended claim fails only
when an earlier column already aborts with its own error.) -/
theorem c5_amended_machine_mismatch (machineName host : String)
    (cols1 cols2 : List String) (vals1 vals2 : List GoValue)
    (s : ContainerStats)
    (hlen : cols1.length = vals1.length)
    (hpre : applyColumns machineName initialReconStats (cols1.zip vals1)
              = Except.ok s)
    (hne : host ≠ machineName) :
    valuesToContainerStats machineName (cols1 ++ colMachineName :: cols2)
        (vals1 ++ GoValue.str host :: vals2)
      = Except.error GoErr.differentMachine := by
  unfold valuesToContainerStats
  rw [List.zip_append hlen, applyColumns_append, hpre]
  simp only [List.zip_cons_cons, applyColumns, applyColumn, colMachineName,
    colTimestamp, hne]
  simp [hne]

/-- Witness for the amended C5 at a concrete input. -/
theorem c5_amended_machine_mismatch_witness :
    valuesToContainerStats "hostA"
        ([colMemoryUsage] ++ colMachineName :: [colCpuCumulativeUsage])
        ([GoValue.u64 5] ++ GoValue.str "hostB" :: [GoValue.u64 7])
      = Except.error GoErr.differentMachine :=
  c5_amended_machine_mismatch "hostA" "hostB" [colMemoryUsage]
    [colCpuCumulativeUsage] [GoValue.u64 5] [GoValue.u64 7]
    { initialReconStats with memory := some ⟨5, 0⟩ } rfl (by decide)
    (by decide)

/-- A failing coercion in any of the seven core-metric columns is wrapped in
the per-column error that names the column and the raw value. -/
theorem applyColumn_metric_error (machineName : String) (s : ContainerStats)
    (col : String) (v : GoValue) (e : GoErr)
    (hcol : col ∈ [colCpuCumulativeUsage, colMemoryUsage, colMemoryWorkingSet,
                   colRxBytes, colRxErrors, colTxBytes, colTxErrors])
    (hv : convertToUint64 v = Except.error e) :
    applyColumn machineName s col v
      = Except.error (GoErr.columnInvalid col v e) := by
  fin_cases hcol <;>
    simp [applyColumn, colTimestamp, colMachineName, colCpuCumulativeUsage,
      colMemoryUsage, colMemoryWorkingSet, colRxBytes, colRxErrors,
      colTxBytes, colTxErrors, hv]

/-- C6: the numeric coercion accepts unsigned integers directly, accepts
signed integers and floats exactly when non-negative (failing with the
negative-value error otherwise, and truncating floats toward zero), coerces
nil to zero, rejects any other representation with the unknown-type error;
and a coercion failure in a metric column aborts the whole reconstruction
with an error carrying the offending column name and raw value (the
filesystem limit/usage columns wrap the same data in their own field-specific
errors). -/
theorem c6_coercion_and_abort :
    (convertToUint64 GoValue.null = Except.ok 0) ∧
    (∀ x : Nat, convertToUint64 (GoValue.u64 x) = Except.ok x) ∧
    (∀ x : Nat, convertToUint64 (GoValue.u32 x) = Except.ok x) ∧
    (∀ x : Int, 0 ≤ x → convertToUint64 (GoValue.i x) = Except.ok x.toNat) ∧
    (∀ x : Int, x < 0 → convertToUint64 (GoValue.i x)
        = Except.error (GoErr.negativeValue (GoValue.i x))) ∧
    (∀ x : Int, 0 ≤ x → convertToUint64 (GoValue.i32 x) = Except.ok x.toNat) ∧
    (∀ x : Int, x < 0 → convertToUint64 (GoValue.i32 x)
        = Except.error (GoErr.negativeValue (GoValue.i32 x))) ∧
    (∀ x : Int, 0 ≤ x → convertToUint64 (GoValue.i64 x) = Except.ok x.toNat) ∧
    (∀ x : Int, x < 0 → convertToUint64 (GoValue.i64 x)
        = Except.error (GoErr.negativeValue (GoValue.i64 x))) ∧
    (∀ q : Rat, 0 ≤ q → convertToUint64 (GoValue.f64 q)
        = Except.ok (ratTrunc q).toNat) ∧
    (∀ q : Rat, q < 0 → convertToUint64 (GoValue.f64 q)
        = Except.error (GoErr.negativeValue (GoValue.f64 q))) ∧
    (∀ str : String, convertToUint64 (GoValue.str str)
        = Except.error GoErr.unknownType) ∧
    (∀ (machineName : String) (cols1 cols2 : List String)
       (vals1 vals2 : List GoValue) (col : String) (v : GoValue) (e : GoErr)
       (s : ContainerStats),
       cols1.length = vals1.length →
       applyColumns machineName initialReconStats (cols1.zip vals1)
           = Except.ok s →
       col ∈ [colCpuCumulativeUsage, colMemoryUsage, colMemoryWorkingSet,
              colRxBytes, colRxErrors, colTxBytes, colTxErrors] →
       convertToUint64 v = Except.error e →
       valuesToContainerStats machineName (cols1 ++ col :: cols2)
           (vals1 ++ v :: vals2)
         = Except.error (GoErr.columnInvalid col v e)) ∧
    (∀ (machineName : String) (cols1 cols2 : List String)
       (vals1 vals2 : List GoValue) (v : GoValue) (e : GoErr)
       (s : ContainerStats),
       cols1.length = vals1.length →
       applyColumns machineName initialReconStats (cols1.zip vals1)
           = Except.ok s →
       convertToUint64 v = Except.error e →
       valuesToContainerStats machineName (cols1 ++ colFsLimit :: cols2)
           (vals1 ++ v :: vals2)
         = Except.error (GoErr.fsLimitInvalid v e)) ∧
    (∀ (machineName : String) (cols1 cols2 : List String)
       (vals1 vals2 : List GoValue) (v : GoValue) (e : GoErr)
       (s : ContainerStats),
       cols1.length = vals1.length →
       applyColumns machineName initialReconStats (cols1.zip vals1)
           = Except.ok s →
       convertToUint64 v = Except.error e →
       valuesToContainerStats machineName (cols1 ++ colFsUsage :: cols2)
           (vals1 ++ v :: vals2)
         = Except.error (GoErr.fsUsageInvalid v e)) := by
  refine ⟨rfl, fun x => rfl, fun x => rfl, ?_, ?_, ?_, ?_, ?_, ?_, ?_, ?_,
    fun str => rfl, ?_, ?_, ?_⟩
  · intro x hx; simp [convertToUint64, not_lt.2 hx]
  · intro x hx; simp [convertToUint64, hx]
  · intro x hx; simp [convertToUint64, not_lt.2 hx]
  · intro x hx; simp [convertToUint64, hx]
  · intro x hx; simp [convertToUint64, not_lt.2 hx]
  · intro x hx; simp [convertToUint64, hx]
  · intro q hq; simp [convertToUint64, not_lt.2 hq]
  · intro q hq; simp [convertToUint64, hq]
  · intro machineName cols1 cols2 vals1 vals2 col v e s hlen hpre hcol hv
    unfold valuesToContainerStats
    rw [List.zip_append hlen, applyColumns_append, hpre]
    simp only [List.zip_cons_cons, applyColumns,
      applyColumn_metric_error machineName s col v e hcol hv]
  · intro machineName cols1 cols2 vals1 vals2 v e s hlen hpre hv
    unfold valuesToContainerStats
    rw [List.zip_append hlen, applyColumns_append, hpre]
    simp [List.zip_cons_cons, applyColumns, applyColumn, colTimestamp,
      colMachineName, colCpuCumulativeUsage, colMemoryUsage,
      colMemoryWorkingSet, colRxBytes, colRxErrors, colTxBytes, colTxErrors,
      colFsDevice, colFsLimit, hv]
  · intro machineName cols1 cols2 vals1 vals2 v e s hlen hpre hv
    unfold valuesToContainerStats
    rw [List.zip_append hlen, applyColumns_append, hpre]
    simp [List.zip_cons_cons, applyColumns, applyColumn, colTimestamp,
      colMachineName, colCpuCumulativeUsage, colMemoryUsage,
      colMemoryWorkingSet, colRxBytes, colRxErrors, colTxBytes, colTxErrors,
      colFsDevice, colFsLimit, colFsUsage, hv]

/-- Witness for C6 at concrete inputs: a negative signed value is rejected, a
non-negative float truncates, and a negative cpu column aborts the whole
reconstruction naming the column and value. -/
theorem c6_coercion_and_abort_witness :
    convertToUint64 (GoValue.i64 (-3))
        = Except.error (GoErr.negativeValue (GoValue.i64 (-3))) ∧
    convertToUint64 (GoValue.f64 (7 : Rat)) = Except.ok (ratTrunc 7).toNat ∧
    valuesToContainerStats "hostA" ([] ++ colCpuCumulativeUsage :: [])
        ([] ++ GoValue.i (-1) :: [])
      = Except.error (GoErr.columnInvalid colCpuCumulativeUsage
          (GoValue.i (-1)) (GoErr.negativeValue (GoValue.i (-1)))) :=
  ⟨ c6_coercion_and_abort.2.2.2.2.2.2.2.2.1 (-3) (by decide)
  , c6_coercion_and_abort.2.2.2.2.2.2.2.2.2.1 7 (by decide)
  , c6_coercion_and_abort.2.2.2.2.2.2.2.2.2.2.2.2.1 "hostA" [] [] [] []
      colCpuCumulativeUsage (GoValue.i (-1))
      (GoErr.negativeValue (GoValue.i (-1))) initialReconStats rfl rfl
      (by decide) (by decide) ⟩


theorem setFsDevice_length_le (fs : List FsStats) (d : String)
    (h : fs.length <= 1) : (setFsDevice fs d).length <= 1 := by
  cases fs <;> simp_all [setFsDevice]

theorem setFsLimit_length_le (fs : List FsStats) (x : Nat)
    (h : fs.length <= 1) : (setFsLimit fs x).length <= 1 := by
  cases fs <;> simp_all [setFsLimit]

theorem setFsUsage_length_le (fs : List FsStats) (x : Nat)
    (h : fs.length <= 1) : (setFsUsage fs x).length <= 1 := by
  cases fs <;> simp_all [setFsUsage]

/-- Any column outside the twelve recognized names is ignored. -/
theorem applyColumn_unrecognized (machineName : String) (s : ContainerStats)
    (col : String) (v : GoValue)
    (hcol : col ∉ [colTimestamp, colMachineName, colCpuCumulativeUsage,
      colMemoryUsage, colMemoryWorkingSet, colRxBytes, colRxErrors,
      colTxBytes, colTxErrors, colFsDevice, colFsLimit, colFsUsage]) :
    applyColumn machineName s col v = Except.ok s := by
  simp only [List.mem_cons, List.not_mem_nil, or_false, not_or] at hcol
  obtain ⟨n1, n2, n3, n4, n5, n6, n7, n8, n9, n10, n11, n12⟩ := hcol
  simp [applyColumn, n1, n2, n3, n4, n5, n6, n7, n8, n9, n10, n11, n12]

/-- The facts about one successful `applyColumn` step that the shape
invariants of C10 need: present sub-records stay present, the length bound on
the filesystem list is preserved, and any column other than the four network
columns leaves the network sub-record unchanged. -/
theorem applyColumn_step_facts (machineName : String) (s : ContainerStats)
    (col : String) (v : GoValue) (s2 : ContainerStats)
    (h : applyColumn machineName s col v = Except.ok s2) :
    (s.cpu.isSome → s2.cpu.isSome) ∧
    (s.memory.isSome → s2.memory.isSome) ∧
    (s.network.isSome → s2.network.isSome) ∧
    (s.filesystem.length ≤ 1 → s2.filesystem.length ≤ 1) ∧
    ((col = colRxBytes ∨ col = colRxErrors ∨ col = colTxBytes ∨
        col = colTxErrors) ∨ s2.network = s.network) := by
  by_cases hcol : col ∈ [colTimestamp, colMachineName, colCpuCumulativeUsage,
      colMemoryUsage, colMemoryWorkingSet, colRxBytes, colRxErrors,
      colTxBytes, colTxErrors, colFsDevice, colFsLimit, colFsUsage]
  case neg =>
    rw [applyColumn_unrecognized machineName s col v hcol] at h
    injection h with h
    subst h
    exact ⟨id, id, id, id, Or.inr rfl⟩
  fin_cases hcol
  -- timestamp column: only the timestamp field can change
  · simp only [applyColumn, colTimestamp, colMachineName,
      colCpuCumulativeUsage, colMemoryUsage, colMemoryWorkingSet, colRxBytes,
      colRxErrors, colTxBytes, colTxErrors, colFsDevice, colFsLimit,
      colFsUsage, String.reduceEq, ite_true, ite_false] at h
    split at h
    · split at h
      · injection h with h; subst h
        exact ⟨id, id, id, id, Or.inr rfl⟩
      · injection h with h; subst h
        exact ⟨id, id, id, id, Or.inr rfl⟩
    · injection h with h; subst h
      exact ⟨id, id, id, id, Or.inr rfl⟩
  -- machine column: on success the record is unchanged
  · simp only [applyColumn, colTimestamp, colMachineName,
      colCpuCumulativeUsage, colMemoryUsage, colMemoryWorkingSet, colRxBytes,
      colRxErrors, colTxBytes, colTxErrors, colFsDevice, colFsLimit,
      colFsUsage, String.reduceEq, ite_true, ite_false] at h
    split at h
    · split at h
      · exact absurd h (by simp)
      · injection h with h; subst h
        exact ⟨id, id, id, id, Or.inr rfl⟩
    · exact absurd h (by simp)
  -- cpu column
  · simp only [applyColumn, colTimestamp, colMachineName,
      colCpuCumulativeUsage, colMemoryUsage, colMemoryWorkingSet, colRxBytes,
      colRxErrors, colTxBytes, colTxErrors, colFsDevice, colFsLimit,
      colFsUsage, String.reduceEq, ite_true, ite_false] at h
    split at h
    · injection h with h; subst h
      exact ⟨fun hh => by simp [setCpuTotal, hh], fun hh => by simp [setCpuTotal, hh],
        fun hh => by simp [setCpuTotal, hh],
        fun hh => by simpa [setCpuTotal] using hh,
        Or.inr (by simp [setCpuTotal])⟩
    · exact absurd h (by simp)
  -- memory usage column
  · simp only [applyColumn, colTimestamp, colMachineName,
      colCpuCumulativeUsage, colMemoryUsage, colMemoryWorkingSet, colRxBytes,
      colRxErrors, colTxBytes, colTxErrors, colFsDevice, colFsLimit,
      colFsUsage, String.reduceEq, ite_true, ite_false] at h
    split at h
    · injection h with h; subst h
      exact ⟨fun hh => by simp [setMemUsage, hh], fun hh => by simp [setMemUsage, hh],
        fun hh => by simp [setMemUsage, hh],
        fun hh => by simpa [setMemUsage] using hh,
        Or.inr (by simp [setMemUsage])⟩
    · exact absurd h (by simp)
  -- working set column
  · simp only [applyColumn, colTimestamp, colMachineName,
      colCpuCumulativeUsage, colMemoryUsage, colMemoryWorkingSet, colRxBytes,
      colRxErrors, colTxBytes, colTxErrors, colFsDevice, colFsLimit,
      colFsUsage, String.reduceEq, ite_true, ite_false] at h
    split at h
    · injection h with h; subst h
      exact ⟨fun hh => by simp [setMemWorkingSet, hh], fun hh => by simp [setMemWorkingSet, hh],
        fun hh => by simp [setMemWorkingSet, hh],
        fun hh => by simpa [setMemWorkingSet] using hh,
        Or.inr (by simp [setMemWorkingSet])⟩
    · exact absurd h (by simp)
  -- rx bytes column
  · simp only [applyColumn, colTimestamp, colMachineName,
      colCpuCumulativeUsage, colMemoryUsage, colMemoryWorkingSet, colRxBytes,
      colRxErrors, colTxBytes, colTxErrors, colFsDevice, colFsLimit,
      colFsUsage, String.reduceEq, ite_true, ite_false] at h
    split at h
    · injection h with h; subst h
      exact ⟨fun hh => by simp [setRxBytes, hh], fun hh => by simp [setRxBytes, hh],
        fun hh => by simp [setRxBytes, hh],
        fun hh => by simpa [setRxBytes] using hh,
        Or.inl (Or.inl rfl)⟩
    · exact absurd h (by simp)
  -- rx errors column
  · simp only [applyColumn, colTimestamp, colMachineName,
      colCpuCumulativeUsage, colMemoryUsage, colMemoryWorkingSet, colRxBytes,
      colRxErrors, colTxBytes, colTxErrors, colFsDevice, colFsLimit,
      colFsUsage, String.reduceEq, ite_true, ite_false] at h
    split at h
    · injection h with h; subst h
      exact ⟨fun hh => by simp [setRxErrors, hh], fun hh => by simp [setRxErrors, hh],
        fun hh => by simp [setRxErrors, hh],
        fun hh => by simpa [setRxErrors] using hh,
        Or.inl (Or.inr (Or.inl rfl))⟩
    · exact absurd h (by simp)
  -- tx bytes column
  · simp only [applyColumn, colTimestamp, colMachineName,
      colCpuCumulativeUsage, colMemoryUsage, colMemoryWorkingSet, colRxBytes,
      colRxErrors, colTxBytes, colTxErrors, colFsDevice, colFsLimit,
      colFsUsage, String.reduceEq, ite_true, ite_false] at h
    split at h
    · injection h with h; subst h
      exact ⟨fun hh => by simp [setTxBytes, hh], fun hh => by simp [setTxBytes, hh],
        fun hh => by simp [setTxBytes, hh],
        fun hh => by simpa [setTxBytes] using hh,
        Or.inl (Or.inr (Or.inr (Or.inl rfl)))⟩
    · exact absurd h (by simp)
  -- tx errors column
  · simp only [applyColumn, colTimestamp, colMachineName,
      colCpuCumulativeUsage, colMemoryUsage, colMemoryWorkingSet, colRxBytes,
      colRxErrors, colTxBytes, colTxErrors, colFsDevice, colFsLimit,
      colFsUsage, String.reduceEq, ite_true, ite_false] at h
    split at h
    · injection h with h; subst h
      exact ⟨fun hh => by simp [setTxErrors, hh], fun hh => by simp [setTxErrors, hh],
        fun hh => by simp [setTxErrors, hh],
        fun hh => by simpa [setTxErrors] using hh,
        Or.inl (Or.inr (Or.inr (Or.inr rfl)))⟩
    · exact absurd h (by simp)
  -- fs device column
  · simp only [applyColumn, colTimestamp, colMachineName,
      colCpuCumulativeUsage, colMemoryUsage, colMemoryWorkingSet, colRxBytes,
      colRxErrors, colTxBytes, colTxErrors, colFsDevice, colFsLimit,
      colFsUsage, String.reduceEq, ite_true, ite_false] at h
    split at h
    · injection h with h; subst h
      exact ⟨fun hh => by simpa using hh, fun hh => by simpa using hh,
        fun hh => by simpa using hh,
        setFsDevice_length_le s.filesystem _, Or.inr rfl⟩
    · exact absurd h (by simp)
  -- fs limit column
  · simp only [applyColumn, colTimestamp, colMachineName,
      colCpuCumulativeUsage, colMemoryUsage, colMemoryWorkingSet, colRxBytes,
      colRxErrors, colTxBytes, colTxErrors, colFsDevice, colFsLimit,
      colFsUsage, String.reduceEq, ite_true, ite_false] at h
    split at h
    · injection h with h; subst h
      exact ⟨fun hh => by simpa using hh, fun hh => by simpa using hh,
        fun hh => by simpa using hh,
        setFsLimit_length_le s.filesystem _, Or.inr rfl⟩
    · exact absurd h (by simp)
  -- fs usage column
  · simp only [applyColumn, colTimestamp, colMachineName,
      colCpuCumulativeUsage, colMemoryUsage, colMemoryWorkingSet, colRxBytes,
      colRxErrors, colTxBytes, colTxErrors, colFsDevice, colFsLimit,
      colFsUsage, String.reduceEq, ite_true, ite_false] at h
    split at h
    · injection h with h; subst h
      exact ⟨fun hh => by simpa using hh, fun hh => by simpa using hh,
        fun hh => by simpa using hh,
        setFsUsage_length_le s.filesystem _, Or.inr rfl⟩
    · exact absurd h (by simp)

/-- Invariant rule for the column walk: a property of the accumulator that
every successful `applyColumn` step preserves holds for the final record. -/
theorem applyColumns_inv (P : ContainerStats → Prop) (machineName : String)
    (l : List (String × GoValue)) (s : ContainerStats) (hs : P s)
    (hstep : ∀ s2 cv, cv ∈ l → P s2 →
      ∀ s3, applyColumn machineName s2 cv.1 cv.2 = Except.ok s3 → P s3) :
    ∀ r, applyColumns machineName s l = Except.ok r → P r := by
  induction l generalizing s with
  | nil =>
    intro r h
    simp only [applyColumns] at h
    cases h
    exact hs
  | cons cv rest ih =>
    intro r h
    simp only [applyColumns] at h
    cases hac : applyColumn machineName s cv.1 cv.2 with
    | error e => rw [hac] at h; cases h
    | ok s2 =>
      rw [hac] at h
      exact ih s2 (hstep s cv (List.mem_cons_self cv rest) hs s2 hac)
        (fun s3 cv2 hm => hstep s3 cv2 (List.mem_cons_of_mem cv hm)) r h

/-- C10: every record the reconstruction returns successfully has non-nil
Cpu, Memory and Network sub-records and a filesystem list of length at most
one (the filesystem device/limit/usage columns always write slot 0, creating
it only if absent); moreover when no network column occurs in the input, the
network sub-record is still present with all-zero values — unlike the write
path, which omits absent network data entirely. -/
theorem c10_recon_shape (machineName : String) (cols : List String)
    (vals : List GoValue) (st : ContainerStats)
    (h : valuesToContainerStats machineName cols vals = Except.ok st) :
    st.cpu.isSome ∧ st.memory.isSome ∧ st.network.isSome ∧
    st.filesystem.length ≤ 1 ∧
    ((∀ c ∈ cols, c ≠ colRxBytes ∧ c ≠ colRxErrors ∧ c ≠ colTxBytes ∧
        c ≠ colTxErrors) → st.network = some ⟨0, 0, 0, 0⟩) := by
  unfold valuesToContainerStats at h
  have hshape := applyColumns_inv
    (fun s => s.cpu.isSome ∧ s.memory.isSome ∧ s.network.isSome ∧
      s.filesystem.length ≤ 1)
    machineName (cols.zip vals) initialReconStats
    (by simp [initialReconStats])
    (fun s2 cv _ hP s3 hok => by
      have F := applyColumn_step_facts machineName s2 cv.1 cv.2 s3 hok
      exact ⟨F.1 hP.1, F.2.1 hP.2.1, F.2.2.1 hP.2.2.1, F.2.2.2.1 hP.2.2.2⟩)
    st h
  refine ⟨hshape.1, hshape.2.1, hshape.2.2.1, hshape.2.2.2, fun hnc => ?_⟩
  refine applyColumns_inv
    (fun s => s.network = some ⟨0, 0, 0, 0⟩)
    machineName (cols.zip vals) initialReconStats rfl
    (fun s2 cv hm hP s3 hok => ?_) st h
  have F := applyColumn_step_facts machineName s2 cv.1 cv.2 s3 hok
  rcases F.2.2.2.2 with hnet | hsame
  · have := hnc cv.1 (List.of_mem_zip hm).1
    rcases hnet with hx | hx | hx | hx <;> simp [hx] at this
  · exact hsame.trans hP

/-- Witness for C10 at a concrete input holding two filesystem-device
columns and no network columns. -/
theorem c10_recon_shape_witness :
    valuesToContainerStats "hostA" [colFsDevice, colFsLimit, colFsDevice]
        [GoValue.str "sda", GoValue.u64 9, GoValue.str "sdb"]
      = Except.ok c10Expected ∧
    c10Expected.cpu.isSome ∧ c10Expected.memory.isSome ∧
    c10Expected.network.isSome ∧ c10Expected.filesystem.length ≤ 1 ∧
    c10Expected.network = some ⟨0, 0, 0, 0⟩ := by
  have hs := c10_recon_shape "hostA" [colFsDevice, colFsLimit, colFsDevice]
    [GoValue.str "sda", GoValue.u64 9, GoValue.str "sdb"] c10Expected
    (by decide)
  exact ⟨by decide, hs.1, hs.2.1, hs.2.2.1, hs.2.2.2.1, hs.2.2.2.2 (by decide)⟩

theorem reconPoints_append_ok (machineName : String) (cols : List String)
    (ps1 ps2 : List (List GoValue)) (l1 l2 : List ContainerStats)
    (h1 : reconPoints machineName cols ps1 = Except.ok l1)
    (h2 : reconPoints machineName cols ps2 = Except.ok l2) :
    reconPoints machineName cols (ps1 ++ ps2) = Except.ok (l1 ++ l2) := by
  induction ps1 generalizing l1 with
  | nil =>
    simp only [reconPoints] at h1
    cases h1
    simpa using h2
  | cons p ps ih =>
    rw [List.cons_append]
    simp only [reconPoints] at h1 ⊢
    cases hv : valuesToContainerStats machineName cols p with
    | error e => rw [hv] at h1; exact absurd h1 (by simp)
    | ok st =>
      rw [hv] at h1
      cases hr : reconPoints machineName cols ps with
      | error e => rw [hr] at h1; exact absurd h1 (by simp)
      | ok rest =>
        rw [hr] at h1
        have h1x : Except.ok (st :: rest) = Except.ok l1 := h1
        cases h1x
        simp [ih rest hr]

theorem reconPoints_reverse_ok (machineName : String) (cols : List String)
    (ps : List (List GoValue)) (l : List ContainerStats)
    (h : reconPoints machineName cols ps = Except.ok l) :
    reconPoints machineName cols ps.reverse = Except.ok l.reverse := by
  induction ps generalizing l with
  | nil =>
    simp only [reconPoints] at h
    cases h
    simp [reconPoints]
  | cons p ps ih =>
    simp only [reconPoints] at h
    cases hv : valuesToContainerStats machineName cols p with
    | error e => rw [hv] at h; exact absurd h (by simp)
    | ok st =>
      rw [hv] at h
      cases hr : reconPoints machineName cols ps with
      | error e => rw [hr] at h; exact absurd h (by simp)
      | ok rest =>
        rw [hr] at h
        have hx : Except.ok (st :: rest) = Except.ok l := h
        cases hx
        rw [List.reverse_cons, List.reverse_cons]
        exact reconPoints_append_ok machineName cols ps.reverse [p] rest.reverse
          [st] (ih rest hr) (by simp only [reconPoints, hv])

theorem recentLoopPoints_ok (machineName : String) (cols : List String)
    (ps : List (List GoValue)) (l : List ContainerStats)
    (h : reconPoints machineName cols ps = Except.ok l) :
    ∀ acc, recentLoopPoints machineName cols acc ps = Except.ok (acc ++ l) := by
  induction ps generalizing l with
  | nil =>
    simp only [reconPoints] at h
    cases h
    intro acc
    simp [recentLoopPoints]
  | cons p ps ih =>
    simp only [reconPoints] at h
    cases hv : valuesToContainerStats machineName cols p with
    | error e => rw [hv] at h; exact absurd h (by simp)
    | ok st =>
      rw [hv] at h
      cases hr : reconPoints machineName cols ps with
      | error e => rw [hr] at h; exact absurd h (by simp)
      | ok rest =>
        rw [hr] at h
        have hx : Except.ok (st :: rest) = Except.ok l := h
        cases hx
        intro acc
        simp only [recentLoopPoints, hv]
        rw [ih rest hr (acc ++ [st])]
        simp

theorem recentLoopSeries_append_ok (machineName : String) (xs : List Series)
    (acc acc2 : List ContainerStats)
    (h : recentLoopSeries machineName acc xs = Except.ok acc2)
    (ys : List Series) :
    recentLoopSeries machineName acc (xs ++ ys)
      = recentLoopSeries machineName acc2 ys := by
  induction xs generalizing acc with
  | nil =>
    simp only [recentLoopSeries] at h
    cases h
    simp
  | cons s ss ih =>
    simp only [List.cons_append, recentLoopSeries] at h ⊢
    cases hp : recentLoopPoints machineName s.columns acc s.points.reverse with
    | error e => rw [hp] at h; exact absurd h (by simp)
    | ok a2 =>
      rw [hp] at h
      exact ih a2 h

theorem recentLoopSeries_reverse_ok (machineName : String)
    (series : List Series) (recons : List ContainerStats)
    (h : reconAll machineName series = Except.ok recons) :
    ∀ acc, recentLoopSeries machineName acc series.reverse
      = Except.ok (acc ++ recons.reverse) := by
  induction series generalizing recons with
  | nil =>
    simp only [reconAll] at h
    cases h
    intro acc
    simp [recentLoopSeries]
  | cons s ss ih =>
    simp only [reconAll] at h
    cases hp : reconPoints machineName s.columns s.points with
    | error e => rw [hp] at h; exact absurd h (by simp)
    | ok l =>
      rw [hp] at h
      cases hr : reconAll machineName ss with
      | error e => rw [hr] at h; exact absurd h (by simp)
      | ok rest =>
        rw [hr] at h
        have hx : Except.ok (l ++ rest) = Except.ok recons := h
        cases hx
        intro acc
        rw [List.reverse_cons]
        rw [recentLoopSeries_append_ok machineName ss.reverse acc
          (acc ++ rest.reverse) (ih rest hr acc) [s]]
        have hrev := reconPoints_reverse_ok machineName s.columns s.points l hp
        simp only [recentLoopSeries]
        rw [recentLoopPoints_ok machineName s.columns s.points.reverse
          l.reverse hrev (acc ++ rest.reverse)]
        simp [List.reverse_append]

theorem recentLoopPoints_ok_mem (machineName : String) (cols : List String)
    (ps : List (List GoValue)) :
    ∀ acc r, recentLoopPoints machineName cols acc ps = Except.ok r →
      ∀ p ∈ ps, ∃ st, valuesToContainerStats machineName cols p
        = Except.ok st := by
  induction ps with
  | nil => intro acc r h p hp; cases hp
  | cons q ps ih =>
    intro acc r h p hp
    simp only [recentLoopPoints] at h
    cases hv : valuesToContainerStats machineName cols q with
    | error e => rw [hv] at h; exact absurd h (by simp)
    | ok st =>
      rw [hv] at h
      rcases List.mem_cons.1 hp with hq | hq
      · subst hq; exact ⟨st, hv⟩
      · exact ih (acc ++ [st]) r h p hq

theorem recentLoopSeries_ok_mem (machineName : String) (ss : List Series) :
    ∀ acc r, recentLoopSeries machineName acc ss = Except.ok r →
      ∀ s ∈ ss, ∀ p ∈ s.points, ∃ st,
        valuesToContainerStats machineName s.columns p = Except.ok st := by
  induction ss with
  | nil => intro acc r h s hs; cases hs
  | cons s2 ss ih =>
    intro acc r h s hs p hp
    simp only [recentLoopSeries] at h
    cases hq : recentLoopPoints machineName s2.columns acc s2.points.reverse with
    | error e => rw [hq] at h; exact absurd h (by simp)
    | ok acc2 =>
      rw [hq] at h
      rcases List.mem_cons.1 hs with h2 | h2
      · subst h2
        exact recentLoopPoints_ok_mem machineName s.columns s.points.reverse
          acc acc2 hq p (List.mem_reverse.2 hp)
      · exact ih acc2 r h s h2 p hp

theorem recentLoopPoints_ok_or_err (machineName : String) (cols : List String)
    (ps : List (List GoValue)) (e : GoErr)
    (H : ∀ p ∈ ps, (∃ st, valuesToContainerStats machineName cols p
        = Except.ok st) ∨
      valuesToContainerStats machineName cols p = Except.error e) :
    ∀ acc, (∃ r, recentLoopPoints machineName cols acc ps = Except.ok r) ∨
      recentLoopPoints machineName cols acc ps = Except.error e := by
  induction ps with
  | nil => intro acc; exact Or.inl ⟨acc, rfl⟩
  | cons p ps ih =>
    intro acc
    rcases H p (List.mem_cons_self p ps) with ⟨st, hv⟩ | hv
    · have step := ih (fun q hq => H q (List.mem_cons_of_mem p hq)) (acc ++ [st])
      rcases step with ⟨r, hr⟩ | hr
      · exact Or.inl ⟨r, by simp only [recentLoopPoints, hv]; exact hr⟩
      · exact Or.inr (by simp only [recentLoopPoints, hv]; exact hr)
    · exact Or.inr (by simp only [recentLoopPoints, hv])

theorem recentLoopSeries_ok_or_err (machineName : String) (ss : List Series)
    (e : GoErr)
    (H : ∀ s ∈ ss, ∀ p ∈ s.points,
      (∃ st, valuesToContainerStats machineName s.columns p = Except.ok st) ∨
      valuesToContainerStats machineName s.columns p = Except.error e) :
    ∀ acc, (∃ r, recentLoopSeries machineName acc ss = Except.ok r) ∨
      recentLoopSeries machineName acc ss = Except.error e := by
  induction ss with
  | nil => intro acc; exact Or.inl ⟨acc, rfl⟩
  | cons s ss ih =>
    intro acc
    have hpts := recentLoopPoints_ok_or_err machineName s.columns
      s.points.reverse e
      (fun p hp => H s (List.mem_cons_self s ss) p (List.mem_reverse.1 hp)) acc
    rcases hpts with ⟨r, hr⟩ | hr
    · have step := ih (fun s2 hs2 => H s2 (List.mem_cons_of_mem s hs2)) r
      rcases step with ⟨r2, hr2⟩ | hr2
      · exact Or.inl ⟨r2, by simp only [recentLoopSeries, hr]; exact hr2⟩
      · exact Or.inr (by simp only [recentLoopSeries, hr]; exact hr2)
    · exact Or.inr (by simp only [recentLoopSeries, hr])

/-- C4: the read path repairs the store ordering and aborts on any
reconstruction error.  Part one: whenever every point of the returned series
list reconstructs successfully (their store-order reconstructions being
`recons`), `RecentStats` returns exactly the reverse of `recons` — it
reverses both the series order and each series' point order — and if the
store delivered strictly time-descending data, the returned sequence is
strictly time-ascending.  Part two: if any point fails to reconstruct (all
points either succeed or fail with the error `e`), the whole retrieval
returns that error with no partial results. -/
theorem c4_recentStats_order_and_abort
    (tableName containerName machineName : String) (numStats : Int)
    (series : List Series) (e : GoErr) (hn : ¬ numStats = 0) :
    (∀ recons, reconAll machineName series = Except.ok recons →
      recentStats tableName containerName machineName numStats
          (fun _ => Except.ok series) = Except.ok recons.reverse ∧
      (List.Pairwise (fun a b => b.timestamp < a.timestamp) recons →
       List.Pairwise (fun a b => a.timestamp < b.timestamp) recons.reverse)) ∧
    ((∀ s ∈ series, ∀ p ∈ s.points,
        (∃ st, valuesToContainerStats machineName s.columns p = Except.ok st) ∨
        valuesToContainerStats machineName s.columns p = Except.error e) →
     (∃ s, s ∈ series ∧ ∃ p, p ∈ s.points ∧
        valuesToContainerStats machineName s.columns p = Except.error e) →
     recentStats tableName containerName machineName numStats
        (fun _ => Except.ok series) = Except.error e) := by
  constructor
  · intro recons hok
    constructor
    · simp only [recentStats, if_neg hn]
      have hrun := recentLoopSeries_reverse_ok machineName series recons hok []
      simpa using hrun
    · intro hdesc
      rw [List.pairwise_reverse]
      exact hdesc
  · intro H hex
    obtain ⟨s, hs, p, hp, herr⟩ := hex
    simp only [recentStats, if_neg hn]
    have Hrev : ∀ s2 ∈ series.reverse, ∀ q ∈ s2.points,
        (∃ st, valuesToContainerStats machineName s2.columns q = Except.ok st) ∨
        valuesToContainerStats machineName s2.columns q = Except.error e :=
      fun s2 hs2 => H s2 (List.mem_reverse.1 hs2)
    rcases recentLoopSeries_ok_or_err machineName series.reverse e Hrev []
      with ⟨r, hr⟩ | hr
    · exfalso
      obtain ⟨st, hst⟩ := recentLoopSeries_ok_mem machineName series.reverse
        [] r hr s (List.mem_reverse.2 hs) p hp
      rw [hst] at herr
      exact absurd herr (by simp)
    · exact hr

/-- Witness for C4 at the concrete store answer
`[S2 {t=30, t=20}, S1 {t=10}]`: the retrieval returns the samples at times
10, 20, 30 in strictly ascending order. -/
theorem c4_recentStats_order_and_abort_witness :
    recentStats "tbl" "c" "hostA" 1 (fun _ => Except.ok demoSeries)
        = Except.ok [demoRecon 30, demoRecon 20, demoRecon 10].reverse ∧
    List.Pairwise (fun a b => a.timestamp < b.timestamp)
        [demoRecon 30, demoRecon 20, demoRecon 10].reverse := by
  have h := (c4_recentStats_order_and_abort "tbl" "c" "hostA" 1 demoSeries
      GoErr.unknownType (by decide)).1
      [demoRecon 30, demoRecon 20, demoRecon 10] (by decide)
  exact ⟨h.1, h.2 (by decide)⟩

end Boxspy
